import Mathlib

/-!
Verification of the real-time chat session subsystem of the
statement-chat repository.

Part A embeds the client connection manager and session store of
frontend/src/lib/websocket.js as a pure state-transition system: the
module-level mutable variables (ws, reconnectAttempts and the Svelte
stores connectionState, sessionId, messages, isThinking, error, stats)
become fields of a SessionState record, and each exported function or
transport event handler becomes a function SessionState to SessionState.
Transport sockets are modelled explicitly (a list of Transport records)
so that properties about at most one live connection, and about close
events fired on sockets the module variable no longer references, can be
stated. Scheduled reconnect timers are modelled as a list of pending
delays; firing a timer runs connect, exactly as setTimeout(connect, d)
does. Strings are modelled as lists of characters.

Part B embeds the response-structuring functions of the ChatMessage
component (extractBudgetInfo, getSpendingChartData, formatContent),
with JavaScript regular-expression matching implemented as explicit
character-list scanners following the semantics of each concrete
pattern of the source.
-/

namespace StatementChat

/-- Strings of the JavaScript program, modelled as lists of characters. -/
abbrev Str := List Char

namespace WS

/-- Connection states, from the ConnectionState enum of websocket.js. -/
inductive ConnState where
  | disconnected
  | connecting
  | connected
  | errored
deriving DecidableEq, Repr

/-- Ready states of a browser WebSocket object (WebSocket.CONNECTING,
WebSocket.OPEN, WebSocket.CLOSING, WebSocket.CLOSED). -/
inductive WsReadyState where
  | CONNECTING
  | OPEN
  | CLOSING
  | CLOSED
deriving DecidableEq, Repr

/-- One transaction record attached by the backend to a chat response
(contract of section 6 of the design: date, description, unsigned
decimal amount, transaction_type debit or credit, optional category).
The date is optional because the code guards it with tx.date?. -/
structure Tx where
  date : Option Str
  description : Str
  amount : ℚ
  transaction_type : Str
  category : Option Str
deriving DecidableEq, Repr

/-- Roles of messages in the session store. -/
inductive Role where
  | user
  | assistant
  | error
deriving DecidableEq, Repr

/-- One entry of the messages store. Fields not set by a given append
site in the source keep their defaults. -/
structure Message where
  role : Role
  content : Str
  transactions : List Tx := []
  code : Option Str := none
  timestamp : Str := []
  llmStats : Option Str := none
deriving DecidableEq, Repr

/-- Decoded incoming frames. The decoder of websocket.js dispatches on
the type tag of the parsed JSON object; the six known tags map to the
tagged constructors carrying the payload fields the handler reads, and
any other tag maps to the constructor other carrying the tag itself. -/
inductive Frame where
  | connected (session_id : Str) (stats : Str)
  | chat_response (message : Str) (transactions : Option (List Tx))
      (timestamp : Str) (llm_stats : Option Str)
  | error (message : Str) (code : Str)
  | cancelled
  | pong
  | cleared
  | other (ty : Str)
deriving DecidableEq, Repr

/-- The type tags of the closed set of known incoming frames. -/
def knownTypes : List Str :=
  ["connected".data, "chat_response".data, "error".data,
   "cancelled".data, "pong".data, "cleared".data]

/-- Outgoing frames written to the socket by sendMessage, clearMessages,
cancelMessage and ping. -/
inductive OutFrame where
  | chat (message : Str)
  | clear
  | cancel
  | ping
deriving DecidableEq, Repr

/-- One browser WebSocket object created by connect, identified by a
serial number, with its transport-level ready state. -/
structure Transport where
  id : Nat
  readyState : WsReadyState
deriving DecidableEq, Repr

/-- The full client-side session state: every transport ever opened,
the module variable ws (as the id of the referenced transport, none for
null), the Svelte stores, the reconnect counter, the multiset of
pending reconnect-timer delays, the transcript of frames written to the
socket, and the ambient wall-clock rendering used for timestamps. -/
structure SessionState where
  transports : List Transport
  ws : Option Nat
  nextId : Nat
  connectionState : ConnState
  sessionId : Option Str
  messages : List Message
  isThinking : Bool
  error : Option Str
  stats : Option Str
  reconnectAttempts : Nat
  pendingReconnects : List Nat
  sentFrames : List OutFrame
  now : Str
deriving DecidableEq, Repr

/-- Ceiling on automatic reconnect attempts (MAX_RECONNECT_ATTEMPTS). -/
def MAX_RECONNECT_ATTEMPTS : Nat := 5

/-- Base reconnect delay in milliseconds (RECONNECT_DELAY). -/
def RECONNECT_DELAY : Nat := 2000

/-- Ready state of the transport with the given id, if it exists. -/
def readyStateOf (s : SessionState) (i : Nat) : Option WsReadyState :=
  (s.transports.find? (fun t => t.id = i)).map (fun t => t.readyState)

/-- Truth of the guard ws and ws.readyState === WebSocket.OPEN. -/
def wsOpen (s : SessionState) : Bool :=
  match s.ws with
  | none => false
  | some i => readyStateOf s i = some WsReadyState.OPEN

/-- Set the ready state of the transport with the given id. -/
def setReady (ts : List Transport) (i : Nat) (r : WsReadyState) :
    List Transport :=
  ts.map (fun t => if t.id = i then { t with readyState := r } else t)

/-- Embedding of connect(): a no-op when the current ws exists and its
readyState is OPEN; otherwise sets Connecting, clears the error and
creates a fresh WebSocket in the CONNECTING state, overwriting the
module variable ws without closing any previous socket. -/
def connect (s : SessionState) : SessionState :=
  if wsOpen s then s
  else
    { s with
      connectionState := ConnState.connecting
      error := none
      transports := s.transports ++ [⟨s.nextId, WsReadyState.CONNECTING⟩]
      ws := some s.nextId
      nextId := s.nextId + 1 }

/-- Embedding of the ws.onopen handler, fired by the browser when the
transport with the given id finishes opening: the socket becomes OPEN
and the handler resets the reconnect counter to zero. -/
def openEvent (s : SessionState) (i : Nat) : SessionState :=
  { s with
    transports := setReady s.transports i WsReadyState.OPEN
    reconnectAttempts := 0 }

/-- Embedding of the ws.onclose handler, fired by the browser when the
transport with the given id closes (whether or not the module variable
ws still references it): the socket becomes CLOSED, the state becomes
Disconnected, the session id is cleared, and if the reconnect counter
is below the ceiling it is incremented and one reconnect timer with
delay RECONNECT_DELAY times the new counter is scheduled. -/
def closeEvent (s : SessionState) (i : Nat) : SessionState :=
  let s1 := { s with
    transports := setReady s.transports i WsReadyState.CLOSED
    connectionState := ConnState.disconnected
    sessionId := none }
  if s1.reconnectAttempts < MAX_RECONNECT_ATTEMPTS then
    { s1 with
      reconnectAttempts := s1.reconnectAttempts + 1
      pendingReconnects := s1.pendingReconnects ++
        [RECONNECT_DELAY * (s1.reconnectAttempts + 1)] }
  else s1

/-- Embedding of the ws.onerror handler: surfaces a connection error
and moves to the Errored state. -/
def errorEvent (s : SessionState) : SessionState :=
  { s with
    error := some "Connection error".data
    connectionState := ConnState.errored }

/-- Embedding of handleMessage(data): dispatch on the frame type. An
unknown type is only logged (console.warn) and changes nothing. -/
def handleMessage (s : SessionState) (data : Frame) : SessionState :=
  match data with
  | Frame.connected sid st =>
      { s with
        connectionState := ConnState.connected
        sessionId := some sid
        stats := some st }
  | Frame.chat_response msg txs ts ls =>
      { s with
        isThinking := false
        messages := s.messages ++
          [{ role := Role.assistant, content := msg,
             transactions := txs.getD [], timestamp := ts,
             llmStats := ls }] }
  | Frame.error msg code =>
      { s with
        isThinking := false
        error := some msg
        messages := s.messages ++
          [{ role := Role.error, content := msg, code := some code,
             timestamp := s.now }] }
  | Frame.cancelled => { s with isThinking := false }
  | Frame.pong => s
  | Frame.cleared => s
  | Frame.other _ => s

/-- Embedding of the ws.onmessage handler: JSON.parse of the raw event
data is modelled as an Option Frame; a parse failure (none) is caught
and logged, changing nothing, and a parsed frame goes to handleMessage
inside the same try block. -/
def messageEvent (s : SessionState) (raw : Option Frame) : SessionState :=
  match raw with
  | none => s
  | some data => handleMessage s data

/-- Embedding of disconnect(): if ws is non-null, close that socket
(readyState becomes CLOSING; the browser delivers its close event
later) and null the module variable; then set Disconnected and clear
the session id. No pending reconnect timer is touched, because the
source never stores the setTimeout handle. -/
def disconnect (s : SessionState) : SessionState :=
  let s1 := match s.ws with
    | some i =>
        { s with
          transports := setReady s.transports i WsReadyState.CLOSING
          ws := none }
    | none => s
  { s1 with
    connectionState := ConnState.disconnected
    sessionId := none }

/-- Firing of one scheduled reconnect timer with the given delay: the
timer is consumed and its callback connect runs. Firing a delay that is
not pending is a no-op (no such timer exists). -/
def timerFire (s : SessionState) (d : Nat) : SessionState :=
  if d ∈ s.pendingReconnects then
    connect { s with pendingReconnects := s.pendingReconnects.erase d }
  else s

/-- Characters removed by the JavaScript String.prototype.trim:
WhiteSpace and LineTerminator code points. -/
def isJsWhitespace (c : Char) : Bool :=
  c = ' ' || c = '\t' || c = '\n' || c = '\r' ||
  c.toNat = 0x000B || c.toNat = 0x000C || c.toNat = 0x00A0 ||
  c.toNat = 0xFEFF || c.toNat = 0x1680 ||
  (0x2000 <= c.toNat && c.toNat <= 0x200A) ||
  c.toNat = 0x2028 || c.toNat = 0x2029 || c.toNat = 0x202F ||
  c.toNat = 0x205F || c.toNat = 0x3000

/-- Embedding of text.trim(). -/
def jsTrim (text : Str) : Str :=
  ((text.dropWhile isJsWhitespace).reverse.dropWhile isJsWhitespace).reverse

/-- Embedding of sendMessage(text): not-open transport surfaces a local
error and returns; whitespace-only text returns with no effect at all;
otherwise the user message is appended, the thinking flag set, the
error cleared and one chat frame written to the socket. -/
def sendMessage (s : SessionState) (text : Str) : SessionState :=
  if wsOpen s = false then { s with error := some "Not connected".data }
  else if jsTrim text = [] then s
  else
    { s with
      messages := s.messages ++
        [{ role := Role.user, content := text, timestamp := s.now }]
      isThinking := true
      error := none
      sentFrames := s.sentFrames ++ [OutFrame.chat text] }

/-- Embedding of clearMessages(). -/
def clearMessages (s : SessionState) : SessionState :=
  let s1 := { s with messages := [] }
  if wsOpen s1 then { s1 with sentFrames := s1.sentFrames ++ [OutFrame.clear] }
  else s1

/-- Embedding of cancelMessage(). -/
def cancelMessage (s : SessionState) : SessionState :=
  if wsOpen s then
    { s with
      sentFrames := s.sentFrames ++ [OutFrame.cancel]
      isThinking := false }
  else s

/-- Embedding of ping(). -/
def ping (s : SessionState) : SessionState :=
  if wsOpen s then { s with sentFrames := s.sentFrames ++ [OutFrame.ping] }
  else s

/-- Number of live transports: sockets that are CONNECTING or OPEN,
hence holding or establishing a real network connection. -/
def liveCount (s : SessionState) : Nat :=
  (s.transports.filter (fun t =>
    t.readyState = WsReadyState.CONNECTING ||
    t.readyState = WsReadyState.OPEN)).length

/-- The pristine module state: no socket ever created, all stores at
their initial values. -/
def initialState : SessionState :=
  { transports := []
    ws := none
    nextId := 0
    connectionState := ConnState.disconnected
    sessionId := none
    messages := []
    isThinking := false
    error := none
    stats := none
    reconnectAttempts := 0
    pendingReconnects := []
    sentFrames := []
    now := [] }

/-- A representative established session: one OPEN socket that the
module variable references, state Connected, a session id, and a zero
reconnect counter (reset by the onopen handler). -/
def connectedState : SessionState :=
  { transports := [⟨0, WsReadyState.OPEN⟩]
    ws := some 0
    nextId := 1
    connectionState := ConnState.connected
    sessionId := some "abc123".data
    messages := []
    isThinking := false
    error := none
    stats := none
    reconnectAttempts := 0
    pendingReconnects := []
    sentFrames := []
    now := "2025-09-07T10:00:00Z".data }

end WS

end StatementChat

namespace WSProps

open StatementChat WS

/-- A state in which one reconnect timer (4000 ms, after two failed
attempts) is pending and no socket is live. -/
def pendingTimerState : SessionState :=
  { initialState with
    transports := [⟨0, WsReadyState.CLOSED⟩]
    nextId := 1
    reconnectAttempts := 2
    pendingReconnects := [4000] }

end WSProps

namespace WSProps

open StatementChat WS

/-- C1 (demonstration at the failing input): from an established
session with a zero reconnect counter, the caller invokes disconnect();
the state does become Disconnected, but when the browser then delivers
the close event of the caller-closed socket, the still-attached onclose
handler schedules a 2000 ms reconnect timer, and firing that timer
reconnects (state Connecting, a fresh live socket). Moreover a
reconnect timer that is already pending when disconnect() runs is left
pending. This contradicts the claim that disconnect cancels any pending
reconnect timer and that no reconnect ever fires afterward. -/
theorem disconnect_close_still_schedules_reconnect :
    (disconnect connectedState).connectionState = ConnState.disconnected ∧
    (closeEvent (disconnect connectedState) 0).pendingReconnects =
      [RECONNECT_DELAY * 1] ∧
    (timerFire (closeEvent (disconnect connectedState) 0)
        (RECONNECT_DELAY * 1)).connectionState = ConnState.connecting ∧
    liveCount (timerFire (closeEvent (disconnect connectedState) 0)
        (RECONNECT_DELAY * 1)) = 1 ∧
    (disconnect pendingTimerState).pendingReconnects = [4000] := by
  decide

end WSProps

namespace WSProps

open StatementChat WS

/-- C2: when the close event fires with the reconnect counter at n - 1
for n between 1 and the ceiling of 5, the counter is incremented to n
before computing the delay and exactly one reconnect timer with delay
2000 ms times n is scheduled; when the counter has already reached the
ceiling (the 5th attempt failed), no further reconnect is scheduled. -/
theorem reconnect_backoff_linear_and_capped :
    (∀ (s : SessionState) (i n : Nat),
        1 ≤ n → n ≤ MAX_RECONNECT_ATTEMPTS → s.reconnectAttempts = n - 1 →
        (closeEvent s i).reconnectAttempts = n ∧
        (closeEvent s i).pendingReconnects =
          s.pendingReconnects ++ [2000 * n]) ∧
    (∀ (s : SessionState) (i : Nat),
        s.reconnectAttempts = MAX_RECONNECT_ATTEMPTS →
        (closeEvent s i).pendingReconnects = s.pendingReconnects ∧
        (closeEvent s i).reconnectAttempts = s.reconnectAttempts) := by
  constructor
  · intro s i n h1 h5 h
    have hlt : s.reconnectAttempts < MAX_RECONNECT_ATTEMPTS := by
      rw [h]; unfold MAX_RECONNECT_ATTEMPTS at h5 ⊢; omega
    have hn : s.reconnectAttempts + 1 = n := by omega
    simp only [closeEvent, hlt, if_pos]
    constructor
    · exact hn
    · rw [RECONNECT_DELAY, hn]
  · intro s i h
    have hlt : ¬ s.reconnectAttempts < MAX_RECONNECT_ATTEMPTS := by omega
    simp only [closeEvent, hlt, if_neg]
    exact ⟨rfl, rfl⟩

/-- Witness for C2 at a concrete state: with the counter at 2, a close
event on socket 0 sets the counter to 3 and schedules a 6000 ms timer. -/
theorem reconnect_backoff_linear_and_capped_witness :
    (closeEvent pendingTimerState 0).reconnectAttempts = 3 ∧
    (closeEvent pendingTimerState 0).pendingReconnects =
      pendingTimerState.pendingReconnects ++ [2000 * 3] :=
  reconnect_backoff_linear_and_capped.1 pendingTimerState 0 3
    (by decide) (by decide) (by decide)

/-- C3: a frame that fails to parse as JSON (modelled as none) or whose
type tag lies outside the closed set of known types is only logged and
discarded: the message handler does not throw (it is a total function)
and returns the state unchanged, so the message list, the thinking
flag, the connection state and the session identity are untouched. -/
theorem unknown_or_malformed_frame_discarded (s : SessionState)
    (raw : Option Frame)
    (h : raw = none ∨
      ∃ ty, ty ∉ knownTypes ∧ raw = some (Frame.other ty)) :
    messageEvent s raw = s := by
  rcases h with h | ⟨ty, _, h⟩ <;> rw [h] <;> rfl

/-- Witness for C3: the frame with unknown type tag bogus leaves an
established session state exactly as it was. -/
theorem unknown_or_malformed_frame_discarded_witness :
    messageEvent connectedState (some (Frame.other "bogus".data)) =
      connectedState :=
  unknown_or_malformed_frame_discarded connectedState
    (some (Frame.other "bogus".data))
    (Or.inr ⟨"bogus".data, by decide, rfl⟩)

/-- C8: invoking sendMessage while the transport is not open (for any
text) only sets the local error to Not connected; the message list, the
thinking flag and the transcript of transmitted frames are unchanged,
and no exception is possible (the embedding is a total function). -/
theorem sendMessage_not_open_local_error (s : SessionState) (text : Str)
    (h : wsOpen s = false) :
    sendMessage s text = { s with error := some "Not connected".data } := by
  simp only [sendMessage, h, if_pos]

/-- Witness for C8: sending from the pristine disconnected state yields
exactly the same state with the local error set. -/
theorem sendMessage_not_open_local_error_witness :
    sendMessage initialState "hello".data =
      { initialState with error := some "Not connected".data } :=
  sendMessage_not_open_local_error initialState "hello".data (by decide)

end WSProps

namespace WSProps

open StatementChat WS

/-- C10: invoking sendMessage with a text consisting only of whitespace
(including the empty string) while the transport is open is a complete
no-op: the trimmed text is empty, so the function returns before
appending a user message, before touching the thinking flag or the
error value, and before transmitting any chat frame. -/
theorem sendMessage_whitespace_only_noop (s : SessionState) (text : Str)
    (hopen : wsOpen s = true) (hws : ∀ c ∈ text, isJsWhitespace c) :
    sendMessage s text = s := by
  have h1 : text.dropWhile isJsWhitespace = [] :=
    List.dropWhile_eq_nil_iff.mpr hws
  have ht : jsTrim text = [] := by
    unfold jsTrim; rw [h1]; rfl
  simp [sendMessage, hopen, ht]

/-- Witness for C10: two spaces sent on an established session leave
the state exactly as it was. -/
theorem sendMessage_whitespace_only_noop_witness :
    sendMessage connectedState "  ".data = connectedState :=
  sendMessage_whitespace_only_noop connectedState "  ".data
    (by decide) (by decide)

/-- C9 counterexample: invoking connect() twice from the pristine state
(the second call while the first connection attempt is still in the
CONNECTING state, which the guard does not treat as established) leaves
two simultaneously live transports, refuting the claim that no sequence
of connect() invocations produces two live transports. -/
theorem connect_while_connecting_two_live :
    liveCount (connect (connect initialState)) = 2 ∧
    (connect initialState).transports =
      [⟨0, WsReadyState.CONNECTING⟩] := by
  decide

/-- C9 as amended: connect() is a no-op when the referenced transport
is OPEN, and from a state with no live transport it creates exactly
one; but a call made while a previous attempt is still CONNECTING opens
a second live transport (see the counterexample), so uniqueness of the
live transport holds only outside a pending connection attempt. -/
theorem connect_noop_when_open_and_single_from_none (s : SessionState) :
    (wsOpen s = true → connect s = s) ∧
    (liveCount s = 0 → liveCount (connect s) = 1) := by
  constructor
  · intro h
    simp [connect, h]
  · intro h
    have hopen : wsOpen s = false := by
      by_contra hc
      rw [Bool.not_eq_false] at hc
      cases hws : s.ws with
      | none => rw [wsOpen, hws] at hc; simp at hc
      | some i =>
        rw [wsOpen, hws] at hc
        simp only [decide_eq_true_eq] at hc
        unfold readyStateOf at hc
        cases hf : s.transports.find? (fun t => t.id = i) with
        | none => rw [hf] at hc; simp at hc
        | some t =>
          rw [hf] at hc
          simp only [Option.map_some', Option.some_inj] at hc
          have hmem : t ∈ s.transports := List.mem_of_find?_eq_some hf
          unfold liveCount at h
          rw [List.length_eq_zero] at h
          have hlive : t ∈ s.transports.filter (fun t =>
              t.readyState = WsReadyState.CONNECTING ||
              t.readyState = WsReadyState.OPEN) :=
            List.mem_filter.mpr ⟨hmem, by simp [hc]⟩
          rw [h] at hlive
          exact absurd hlive (List.not_mem_nil t)
    unfold liveCount at h ⊢
    rw [List.length_eq_zero] at h
    simp [connect, hopen, List.filter_append, h]

/-- Witness for C9 amended: on the established session connect is the
identity, and from the pristine state it creates exactly one live
transport. -/
theorem connect_noop_when_open_and_single_from_none_witness :
    connect connectedState = connectedState ∧
    liveCount (connect initialState) = 1 :=
  ⟨(connect_noop_when_open_and_single_from_none connectedState).1 (by decide),
   (connect_noop_when_open_and_single_from_none initialState).2 (by decide)⟩

end WSProps

namespace StatementChat

namespace ChatMsg

open WS

/-- Characters matched by the regular-expression class [\d,\.] used for
currency amounts throughout the component. -/
def isAmtChar (c : Char) : Bool :=
  c.isDigit || c = ',' || c = '.'

/-- Line terminators of a JavaScript regular expression: the dot never
matches them, and with the m flag the caret matches just after and the
dollar just before each of them (line feed, carriage return, line
separator, paragraph separator). -/
def isLineTerm (c : Char) : Bool :=
  c = '\n' || c = '\r' || c.toNat = 0x2028 || c.toNat = 0x2029

/-- Match a literal pattern at the head of the input; on success return
the remaining input. -/
def dropLit : Str → Str → Option Str
  | [], s => some s
  | _ :: _, [] => none
  | p :: ps, c :: cs => if c = p then dropLit ps cs else none

/-- Match a literal pattern at the head of the input, ignoring letter
case (the i flag of a JavaScript regular expression); on success return
the remaining input. -/
def dropLitCI : Str → Str → Option Str
  | [], s => some s
  | _ :: _, [] => none
  | p :: ps, c :: cs => if c.toLower = p.toLower then dropLitCI ps cs else none

/-- Leftmost-match search: try the matcher at every start position from
the left (including the empty suffix), as a JavaScript regular
expression engine does, and return the first success. -/
def scanFirst (f : Str → Option α) : Str → Option α
  | [] => f []
  | c :: cs =>
    match f (c :: cs) with
    | some r => some r
    | none => scanFirst f cs

/-- Numeric value of a string of decimal digits (the behaviour of
parseInt on an all-digit string). -/
def digitsToNat (ds : Str) : Nat :=
  ds.foldl (fun n c => 10 * n + (c.toNat - 48)) 0

/-- Embedding of parseFloat restricted to the shapes produced by the
matchers of the component: an integer part, an optional dot and
fraction part; trailing characters (such as a second dot) are ignored
exactly as parseFloat ignores them; none models NaN (no leading
digit or dot-digit). Sign, exponent and leading whitespace never occur
in the strings the component passes in and are not modelled. -/
def parseFloatQ (s : Str) : Option ℚ :=
  let intPart := s.takeWhile Char.isDigit
  let rest := s.dropWhile Char.isDigit
  match intPart, rest with
  | [], '.' :: rest2 =>
    let frac := rest2.takeWhile Char.isDigit
    if frac = [] then none
    else some ((digitsToNat frac : ℚ) / ((10 : ℚ) ^ frac.length))
  | [], _ => none
  | ds, '.' :: rest2 =>
    let frac := rest2.takeWhile Char.isDigit
    some ((digitsToNat ds : ℚ) + (digitsToNat frac : ℚ) / ((10 : ℚ) ^ frac.length))
  | ds, _ => some ((digitsToNat ds : ℚ))

/-- Embedding of the parseAmount helper of extractBudgetInfo:
str.replace removing every R and comma, then parseFloat. -/
def parseAmount (s : Str) : Option ℚ :=
  parseFloatQ (s.filter (fun c => !(c = 'R' || c = ',')))

/-- Match R followed by one or more amount characters (the group
R[\d,\.]+ under the i flag, so a lowercase r is accepted too), starting
at the head of the input; return the captured text and the rest. -/
def takeRAmtCI (s : Str) : Option (Str × Str) :=
  match s with
  | c :: cs =>
    if c.toLower = 'r' then
      let a := cs.takeWhile isAmtChar
      if a = [] then none else some (c :: a, cs.dropWhile isAmtChar)
    else none
  | [] => none

/-- Match R followed by one or more amount characters, case sensitive
(the group R[\d,\.]+ with no i flag). -/
def takeRAmt (s : Str) : Option (Str × Str) :=
  match s with
  | 'R' :: cs =>
    let a := cs.takeWhile isAmtChar
    if a = [] then none else some ('R' :: a, cs.dropWhile isAmtChar)
  | _ => none

/-- Matcher for the pattern budget is (R[\d,\.]+) with the i flag,
anchored at the current position; returns capture group 1. -/
def budgetIsAt (s : Str) : Option Str :=
  match dropLitCI "budget is ".data s with
  | none => none
  | some rest => (takeRAmtCI rest).map Prod.fst

/-- Matcher for the pattern spent (R[\d,\.]+) with the i flag, anchored
at the current position; returns capture group 1. -/
def spentAt (s : Str) : Option Str :=
  match dropLitCI "spent ".data s with
  | none => none
  | some rest => (takeRAmtCI rest).map Prod.fst

/-- Matcher for the pattern \((\d+)% used\), anchored at the current
position; returns the digits of capture group 1. -/
def percentUsedAt (s : Str) : Option Str :=
  match s with
  | '(' :: rest =>
    let d := rest.takeWhile Char.isDigit
    if d = [] then none
    else
      match dropLit "% used)".data (rest.dropWhile Char.isDigit) with
      | some _ => some d
      | none => none
  | _ => none

/-- Matcher for the alternative pattern
spent (R[\d,\.]+).*?of (R[\d,\.]+) budget with the i flag, anchored at
the current position. The lazy gap .*? cannot cross a line terminator
and takes the nearest position where of (R[\d,\.]+) budget matches; returns the
two captured amounts. Because the gap may be any non-newline text and
the literal of begins with a letter the greedy amount capture never has
to backtrack. -/
def spentOfBudgetAt (s : Str) : Option (Str × Str) :=
  match dropLitCI "spent ".data s with
  | none => none
  | some rest =>
    match takeRAmtCI rest with
    | none => none
    | some (a1, rest2) =>
      let tail := fun (t : Str) =>
        match dropLitCI "of ".data t with
        | none => none
        | some u =>
          match takeRAmtCI u with
          | none => none
          | some (a2, v) =>
            match dropLitCI " budget".data v with
            | some _ => some a2
            | none => none
      (scanFirst tail (rest2.takeWhile (fun c => !isLineTerm c))).map
        (fun a2 => (a1, a2))

/-- Matcher for the pattern (\d+)%, anchored at the current position;
returns the digits. Since a percent sign is not a digit the greedy
digit run never backtracks. -/
def digitsPercentAt (s : Str) : Option Str :=
  let d := s.takeWhile Char.isDigit
  if d = [] then none
  else
    match s.dropWhile Char.isDigit with
    | '%' :: _ => some d
    | _ => none

/-- Result record of extractBudgetInfo. The two amounts are Option
because parseFloat yields NaN (modelled none) on a capture whose
stripped text has no leading digit. -/
structure BudgetInfo where
  budget : Option ℚ
  spent : Option ℚ
  percent : Nat
  budgetStr : Str
  spentStr : Str
deriving DecidableEq, Repr

/-- Embedding of extractBudgetInfo(content) of the ChatMessage
component: empty content yields null; the first template
(budget is R..., spent R..., (N% used)) wins when all three searches
succeed; otherwise the alternative template
(spent R... of R... budget, bare N%) is tried; otherwise null. -/
def extractBudgetInfo (content : Str) : Option BudgetInfo :=
  if content = [] then none
  else
    match scanFirst budgetIsAt content, scanFirst spentAt content,
        scanFirst percentUsedAt content with
    | some b, some sp, some pd =>
      some { budget := parseAmount b, spent := parseAmount sp,
             percent := digitsToNat pd, budgetStr := b, spentStr := sp }
    | _, _, _ =>
      match scanFirst spentOfBudgetAt content,
          scanFirst digitsPercentAt content with
      | some (sp, b), some pd =>
        some { budget := parseAmount b, spent := parseAmount sp,
               percent := digitsToNat pd, budgetStr := b, spentStr := sp }
      | _, _ => none

/-- Apostrophe character, for building example contents. -/
def apos : Char := Char.ofNat 39

/-- The example content of the claim: Your budget is R8,000.00 and
you have spent R8,480.00 (106% used), with the contraction written with
an apostrophe as in the source material. -/
def exampleBudgetContent : Str :=
  "Your budget is R8,000.00 and you".data ++ [apos] ++
  "ve spent R8,480.00 (106% used)".data

end ChatMsg

end StatementChat

namespace ChatMsgProps

open StatementChat StatementChat.ChatMsg

/-- C6: on the content Your budget is R8,000.00 and you have spent
R8,480.00 (106% used) (the contraction written with an apostrophe), the
budget-info extractor returns a BudgetProgress with budget 8000, spent
8480 and percent 106, the amounts parsed by stripping the R currency
symbol and comma thousands separators and reading the remainder as a
decimal; the captured display strings are R8,000.00 and R8,480.00. -/
theorem extractBudgetInfo_example :
    extractBudgetInfo exampleBudgetContent =
      some { budget := some 8000, spent := some 8480, percent := 106,
             budgetStr := "R8,000.00".data,
             spentStr := "R8,480.00".data } := by
  have h1 : extractBudgetInfo exampleBudgetContent =
      some { budget := parseAmount "R8,000.00".data,
             spent := parseAmount "R8,480.00".data,
             percent := 106,
             budgetStr := "R8,000.00".data,
             spentStr := "R8,480.00".data } := rfl
  have h2 : parseAmount "R8,000.00".data =
      some ((digitsToNat "8000".data : ℚ) +
        (digitsToNat "00".data : ℚ) / (10 : ℚ) ^ ("00".data.length)) := rfl
  have h3 : parseAmount "R8,480.00".data =
      some ((digitsToNat "8480".data : ℚ) +
        (digitsToNat "00".data : ℚ) / (10 : ℚ) ^ ("00".data.length)) := rfl
  have d1 : digitsToNat "8000".data = 8000 := by decide
  have d2 : digitsToNat "8480".data = 8480 := by decide
  have d3 : digitsToNat "00".data = 0 := by decide
  have d4 : ("00".data.length) = 2 := by decide
  rw [h1, h2, h3, d1, d2, d3, d4]
  norm_num

end ChatMsgProps

namespace StatementChat

namespace ChatMsg

open WS

/-- Truth of the filter predicate of getSpendingChartData:
tx.transaction_type === debit and tx.category !== fees (an absent
category is not fees, so it qualifies). -/
def txQualifies (tx : Tx) : Bool :=
  tx.transaction_type = "debit".data && !(tx.category = some "fees".data)

/-- The month key tx.date?.substring(0, 7), and its truthiness test:
none when the date is absent or empty (substring of the empty string is
empty, which is falsy). -/
def monthOf (tx : Tx) : Option Str :=
  match tx.date with
  | none => none
  | some d => if d.take 7 = [] then none else some (d.take 7)

/-- Embedding of the byMonth object update
byMonth[month] = (byMonth[month] || 0) + amount: an existing key is
updated in place, a new key is appended (JavaScript objects preserve
the insertion order of string keys). -/
def addToMonth : List (Str × ℚ) → Str → ℚ → List (Str × ℚ)
  | [], m, amt => [(m, amt)]
  | (k, v) :: rest, m, amt =>
    if k = m then (k, v + amt) :: rest
    else (k, v) :: addToMonth rest m amt

/-- The byMonth grouping of getSpendingChartData over the filtered
debits, in iteration order. The amount contribution is
parseFloat(tx.amount || 0), which is the amount itself in this model of
JSON numbers as rationals. -/
def byMonthOf (debits : List Tx) : List (Str × ℚ) :=
  debits.foldl (fun acc tx =>
    match monthOf tx with
    | some m => addToMonth acc m tx.amount
    | none => acc) []

/-- Lexicographic code-point order on strings, the order localeCompare
induces on the all-ASCII month keys YYYY-MM. -/
def strLe : Str → Str → Bool
  | [], _ => true
  | _ :: _, [] => false
  | a :: as, b :: bs =>
    if a.toNat < b.toNat then true
    else if b.toNat < a.toNat then false
    else strLe as bs

/-- Comparator of the sort call (a, b) => b.month.localeCompare(a.month)
on key-total pairs: a precedes b when the month of a is at least the
month of b (descending, most recent first). -/
def monthDesc (a b : Str × ℚ) : Prop := strLe b.1 a.1 = true

instance : DecidableRel monthDesc := fun a b =>
  inferInstanceAs (Decidable (strLe b.1 a.1 = true))

/-- Largest element of a list of rationals (Math.max over a spread
list; only applied to lists of length at least two). -/
def listMax : List ℚ → ℚ
  | [] => 0
  | x :: xs => xs.foldl max x

/-- One bar of the spending chart. -/
structure MonthEntry where
  month : Str
  total : ℚ
deriving DecidableEq, Repr

/-- Result of getSpendingChartData. -/
structure SpendingChart where
  months : List MonthEntry
  maxAmount : ℚ
deriving DecidableEq, Repr

/-- Embedding of getSpendingChartData(transactions) of the ChatMessage
component: null for an absent or short transaction list, null when
fewer than three non-fee debits remain, grouping of the dated debits by
month, descending sort by month key, truncation to the twelve most
recent months, null when fewer than two months remain, otherwise the
chart with the per-month bars and their maximum. -/
def getSpendingChartData (transactions : Option (List Tx)) :
    Option SpendingChart :=
  match transactions with
  | none => none
  | some txs =>
    if txs.length < 3 then none
    else
      let debits := txs.filter txQualifies
      if debits.length < 3 then none
      else
        let months := (List.insertionSort monthDesc (byMonthOf debits)).take 12
        if months.length < 2 then none
        else some
          { months := months.map (fun p => { month := p.1, total := p.2 })
            maxAmount := listMax (months.map Prod.snd) }

/-- The distinct months (first-seen order) of the dated qualifying
transactions of a list; the specification-level count against which the
chart is characterized. -/
def distinctMonths (txs : List Tx) : List Str :=
  (txs.filter txQualifies).foldl (fun acc tx =>
    match monthOf tx with
    | some m => if m ∈ acc then acc else acc ++ [m]
    | none => acc) []

/-- Total qualifying debit amount of one month of a transaction list:
the sum of the amounts of the qualifying transactions whose month key
equals m. -/
def monthTotal (txs : List Tx) (m : Str) : ℚ :=
  (((txs.filter txQualifies).filter
    (fun tx => monthOf tx = some m)).map Tx.amount).sum

end ChatMsg

end StatementChat

namespace StatementChat
namespace ChatMsg
open WS

theorem strLe_cons_iff {x y : Char} {xs ys : Str} :
    strLe (x :: xs) (y :: ys) = true ↔
      (x.toNat < y.toNat ∨ (x.toNat = y.toNat ∧ strLe xs ys = true)) := by
  simp only [strLe]
  split
  · next h => simp [h]
  · next h =>
    split
    · next h2 => simp; omega
    · next h2 =>
      have hxy : x.toNat = y.toNat := by omega
      simp [hxy]

theorem strLe_total (a b : Str) : strLe a b = true ∨ strLe b a = true := by
  induction a generalizing b with
  | nil => left; rfl
  | cons x xs ih =>
    cases b with
    | nil => right; rfl
    | cons y ys =>
      rcases Nat.lt_trichotomy x.toNat y.toNat with h | h | h
      · left; exact strLe_cons_iff.mpr (Or.inl h)
      · rcases ih ys with h2 | h2
        · left; exact strLe_cons_iff.mpr (Or.inr ⟨h, h2⟩)
        · right; exact strLe_cons_iff.mpr (Or.inr ⟨h.symm, h2⟩)
      · right; exact strLe_cons_iff.mpr (Or.inl h)

theorem strLe_trans {a b c : Str} (h1 : strLe a b = true)
    (h2 : strLe b c = true) : strLe a c = true := by
  induction a generalizing b c with
  | nil => rfl
  | cons x xs ih =>
    cases b with
    | nil => simp [strLe] at h1
    | cons y ys =>
      cases c with
      | nil => simp [strLe] at h2
      | cons z zs =>
        rcases strLe_cons_iff.mp h1 with hx | ⟨hx, hx2⟩ <;>
          rcases strLe_cons_iff.mp h2 with hy | ⟨hy, hy2⟩
        · exact strLe_cons_iff.mpr (Or.inl (Nat.lt_trans hx hy))
        · exact strLe_cons_iff.mpr (Or.inl (hy ▸ hx))
        · exact strLe_cons_iff.mpr (Or.inl (hx ▸ hy))
        · exact strLe_cons_iff.mpr (Or.inr ⟨hx.trans hy, ih hx2 hy2⟩)

instance : IsTotal (Str × ℚ) monthDesc :=
  ⟨fun a b => (strLe_total b.1 a.1).elim Or.inl Or.inr⟩

instance : IsTrans (Str × ℚ) monthDesc :=
  ⟨fun _ _ _ hab hbc => strLe_trans hbc hab⟩

end ChatMsg
end StatementChat

namespace StatementChat
namespace ChatMsg
open WS

theorem addToMonth_map_fst (l : List (Str × ℚ)) (m : Str) (amt : ℚ) :
    (addToMonth l m amt).map Prod.fst =
      if m ∈ l.map Prod.fst then l.map Prod.fst
      else l.map Prod.fst ++ [m] := by
  induction l with
  | nil => simp [addToMonth]
  | cons p rest ih =>
    obtain ⟨k, v⟩ := p
    by_cases h : k = m
    · subst h
      simp [addToMonth]
    · simp only [addToMonth, if_neg h, List.map_cons, ih]
      have hne : ¬ m = k := fun hc => h hc.symm
      by_cases hm : m ∈ rest.map Prod.fst
      · simp [hm, hne]
      · simp [hm, hne]

def lookupVal (l : List (Str × ℚ)) (k : Str) : ℚ :=
  match l.find? (fun p => p.1 = k) with
  | some p => p.2
  | none => 0

theorem lookupVal_cons (k0 : Str) (v : ℚ) (rest : List (Str × ℚ))
    (k : Str) :
    lookupVal ((k0, v) :: rest) k = if k0 = k then v else lookupVal rest k := by
  by_cases h : k0 = k
  · simp [lookupVal, List.find?, h]
  · simp [lookupVal, List.find?, h]

theorem lookupVal_addToMonth (l : List (Str × ℚ)) (m k : Str) (amt : ℚ) :
    lookupVal (addToMonth l m amt) k =
      if k = m then lookupVal l k + amt else lookupVal l k := by
  induction l with
  | nil =>
    by_cases h : k = m
    · subst h; simp [addToMonth, lookupVal_cons, lookupVal]
    · have h2 : ¬ m = k := fun hc => h hc.symm
      simp [addToMonth, lookupVal_cons, lookupVal, h, h2]
  | cons p rest ih =>
    obtain ⟨k0, v⟩ := p
    by_cases h0 : k0 = m
    · subst h0
      by_cases hk : k0 = k
      · subst hk
        simp [addToMonth, lookupVal_cons]
      · have hk2 : ¬ k = k0 := fun hc => hk hc.symm
        simp [addToMonth, lookupVal_cons, hk, hk2]
    · simp only [addToMonth, if_neg h0, lookupVal_cons]
      by_cases hk : k0 = k
      · have hkm : ¬ k = m := fun hc => h0 (hk.trans hc)
        simp [hk, hkm]
      · simp [hk, ih]

end ChatMsg
end StatementChat

namespace StatementChat
namespace ChatMsg
open WS

theorem byMonth_keys_general (l : List Tx) (acc : List (Str × ℚ)) :
    (l.foldl (fun acc tx =>
      match monthOf tx with
      | some m => addToMonth acc m tx.amount
      | none => acc) acc).map Prod.fst =
    l.foldl (fun ks tx =>
      match monthOf tx with
      | some m => if m ∈ ks then ks else ks ++ [m]
      | none => ks) (acc.map Prod.fst) := by
  induction l generalizing acc with
  | nil => rfl
  | cons tx rest ih =>
    simp only [List.foldl_cons]
    cases h : monthOf tx with
    | none => simp only [h]; exact ih acc
    | some m =>
      simp only [h]
      rw [ih, addToMonth_map_fst]

theorem byMonth_values_general (l : List Tx) (acc : List (Str × ℚ)) (k : Str) :
    lookupVal (l.foldl (fun acc tx =>
      match monthOf tx with
      | some m => addToMonth acc m tx.amount
      | none => acc) acc) k =
    lookupVal acc k +
      ((l.filter (fun tx => monthOf tx = some k)).map Tx.amount).sum := by
  induction l generalizing acc with
  | nil => simp
  | cons tx rest ih =>
    simp only [List.foldl_cons, List.filter_cons]
    cases h : monthOf tx with
    | none =>
      simp only [h]
      rw [if_neg (by simp)]
      exact ih acc
    | some m =>
      simp only [h]
      by_cases hk : m = k
      · subst hk
        rw [if_pos (by simp)]
        simp only [List.map_cons, List.sum_cons]
        rw [ih, lookupVal_addToMonth, if_pos rfl]
        ring
      · rw [if_neg (by simp [hk])]
        rw [ih, lookupVal_addToMonth]
        have hkm : ¬ k = m := fun hc => hk hc.symm
        simp [hkm]

theorem keys_nodup_general (l : List Tx) (acc : List Str) (h : acc.Nodup) :
    (l.foldl (fun ks tx =>
      match monthOf tx with
      | some m => if m ∈ ks then ks else ks ++ [m]
      | none => ks) acc).Nodup := by
  induction l generalizing acc with
  | nil => exact h
  | cons tx rest ih =>
    simp only [List.foldl_cons]
    cases hm : monthOf tx with
    | none => simp only [hm]; exact ih _ h
    | some m =>
      simp only [hm]
      by_cases hmem : m ∈ acc
      · simp only [if_pos hmem]; exact ih _ h
      · simp only [if_neg hmem]
        exact ih _ (by simp [List.nodup_append, h, hmem])

theorem lookupVal_of_mem {l : List (Str × ℚ)}
    (hnd : (l.map Prod.fst).Nodup) {k : Str} {v : ℚ} (hm : (k, v) ∈ l) :
    lookupVal l k = v := by
  induction l with
  | nil => cases hm
  | cons p rest ih =>
    obtain ⟨k0, v0⟩ := p
    simp only [List.map_cons, List.nodup_cons] at hnd
    rw [lookupVal_cons]
    rcases List.mem_cons.mp hm with he | hr
    · rw [Prod.mk.injEq] at he
      obtain ⟨h1, h2⟩ := he
      subst h1; subst h2
      simp
    · by_cases h : k0 = k
      · exact absurd (h ▸ (List.mem_map_of_mem Prod.fst hr)) hnd.1
      · simp only [if_neg h]
        exact ih hnd.2 hr

end ChatMsg
end StatementChat

namespace StatementChat
namespace ChatMsg
open WS

/-- C5: a MonthlySpendingChart is produced from an attached transaction
list if and only if at least three transactions qualify (debit type,
category not fees) and the dated qualifying transactions span at least
two distinct calendar months; a produced chart has min 12 d entries for
d distinct months, is ordered most-recent-month-first (descending month
key), has pairwise distinct month labels, each entry total equal to the
sum of that month of the qualifying debit amounts, and, whenever d is
at most twelve, its labels are exactly the d distinct months. -/
theorem spending_chart_characterization (txs : List Tx) :
    ((getSpendingChartData (some txs)).isSome = true ↔
      (3 ≤ (txs.filter txQualifies).length ∧
       2 ≤ (distinctMonths txs).length)) ∧
    (∀ chart, getSpendingChartData (some txs) = some chart →
      chart.months.length = min 12 (distinctMonths txs).length ∧
      List.Pairwise (fun a b : MonthEntry => strLe b.month a.month = true)
        chart.months ∧
      (chart.months.map MonthEntry.month).Nodup ∧
      (∀ e ∈ chart.months,
        e.month ∈ distinctMonths txs ∧ e.total = monthTotal txs e.month) ∧
      ((distinctMonths txs).length ≤ 12 →
        List.Perm (chart.months.map MonthEntry.month)
          (distinctMonths txs))) := by
  have hkeys : (byMonthOf (txs.filter txQualifies)).map Prod.fst =
      distinctMonths txs := by
    have h := byMonth_keys_general (txs.filter txQualifies) []
    simpa [byMonthOf, distinctMonths] using h
  have hndk : (distinctMonths txs).Nodup := by
    have h := keys_nodup_general (txs.filter txQualifies) [] List.nodup_nil
    simpa [distinctMonths] using h
  have hnd : ((byMonthOf (txs.filter txQualifies)).map Prod.fst).Nodup := by
    rw [hkeys]; exact hndk
  have hval : ∀ k v, (k, v) ∈ byMonthOf (txs.filter txQualifies) →
      v = monthTotal txs k := by
    intro k v hm
    have h1 : lookupVal (byMonthOf (txs.filter txQualifies)) k = v :=
      lookupVal_of_mem hnd hm
    have h2 := byMonth_values_general (txs.filter txQualifies) [] k
    simp only [byMonthOf] at h1
    rw [h2] at h1
    have : lookupVal [] k = 0 := rfl
    rw [this, zero_add] at h1
    rw [← h1]
    rfl
  have hdef : getSpendingChartData (some txs) =
      (if txs.length < 3 then none
       else if (txs.filter txQualifies).length < 3 then none
       else if ((List.insertionSort monthDesc
           (byMonthOf (txs.filter txQualifies))).take 12).length < 2 then none
       else some
        { months := ((List.insertionSort monthDesc
            (byMonthOf (txs.filter txQualifies))).take 12).map
              (fun p => { month := p.1, total := p.2 })
          maxAmount := listMax (((List.insertionSort monthDesc
            (byMonthOf (txs.filter txQualifies))).take 12).map
              Prod.snd) }) := rfl
  have hslen : (List.insertionSort monthDesc
      (byMonthOf (txs.filter txQualifies))).length =
      (distinctMonths txs).length := by
    rw [(List.perm_insertionSort monthDesc _).length_eq, ← hkeys,
      List.length_map]
  have htlen : ((List.insertionSort monthDesc
      (byMonthOf (txs.filter txQualifies))).take 12).length =
      min 12 (distinctMonths txs).length := by
    rw [List.length_take, hslen]
  by_cases h3 : txs.length < 3
  · rw [hdef, if_pos h3]
    constructor
    · simp only [Option.isSome_none, Bool.false_eq_true, false_iff]
      intro ⟨hc, _⟩
      have := List.length_filter_le txQualifies txs
      omega
    · intro chart hc; cases hc
  · rw [hdef, if_neg h3]
    by_cases hd3 : (txs.filter txQualifies).length < 3
    · rw [if_pos hd3]
      constructor
      · simp only [Option.isSome_none, Bool.false_eq_true, false_iff]
        intro ⟨hc, _⟩; omega
      · intro chart hc; cases hc
    · rw [if_neg hd3]
      by_cases hm2 : ((List.insertionSort monthDesc
          (byMonthOf (txs.filter txQualifies))).take 12).length < 2
      · rw [if_pos hm2]
        rw [htlen] at hm2
        constructor
        · simp only [Option.isSome_none, Bool.false_eq_true, false_iff]
          intro ⟨_, hc⟩; omega
        · intro chart hc; cases hc
      · rw [if_neg hm2]
        rw [htlen] at hm2
        constructor
        · simp only [Option.isSome_some, true_iff]
          constructor
          · omega
          · omega
        · intro chart hc
          have hchart := (Option.some_inj.mp hc).symm
          subst hchart
          refine ⟨?_, ?_, ?_, ?_, ?_⟩
          · dsimp only
            rw [List.length_map, htlen]
          · have hs : List.Pairwise monthDesc
                ((List.insertionSort monthDesc
                  (byMonthOf (txs.filter txQualifies))).take 12) :=
              List.Pairwise.sublist (List.take_sublist _ _)
                (List.sorted_insertionSort monthDesc _)
            dsimp only
            rw [List.pairwise_map]
            exact hs
          · have hmm : List.map MonthEntry.month
                (List.map (fun p => ({ month := p.1, total := p.2 } : MonthEntry))
                  (List.take 12 (List.insertionSort monthDesc
                    (byMonthOf (txs.filter txQualifies))))) =
                List.map Prod.fst
                  (List.take 12 (List.insertionSort monthDesc
                    (byMonthOf (txs.filter txQualifies)))) := by
              rw [List.map_map]; rfl
            dsimp only
            rw [hmm, List.map_take]
            refine List.Nodup.sublist (List.take_sublist _ _) ?_
            have hperm : List.Perm
                ((List.insertionSort monthDesc
                  (byMonthOf (txs.filter txQualifies))).map Prod.fst)
                ((byMonthOf (txs.filter txQualifies)).map Prod.fst) :=
              (List.perm_insertionSort monthDesc _).map Prod.fst
            exact hperm.nodup_iff.mpr hnd
          · intro e he
            simp only [List.mem_map] at he
            obtain ⟨p, hp, rfl⟩ := he
            obtain ⟨k, v⟩ := p
            have hpmem : (k, v) ∈ byMonthOf (txs.filter txQualifies) := by
              have h1 := List.take_subset 12 _ hp
              exact (List.mem_insertionSort monthDesc).mp h1
            constructor
            · rw [← hkeys]
              exact List.mem_map_of_mem Prod.fst hpmem
            · exact hval k v hpmem
          · intro hle
            have hmm : List.map MonthEntry.month
                (List.map (fun p => ({ month := p.1, total := p.2 } : MonthEntry))
                  (List.take 12 (List.insertionSort monthDesc
                    (byMonthOf (txs.filter txQualifies))))) =
                List.map Prod.fst
                  (List.take 12 (List.insertionSort monthDesc
                    (byMonthOf (txs.filter txQualifies)))) := by
              rw [List.map_map]; rfl
            dsimp only
            rw [hmm, List.map_take]
            have hlen2 : ((List.insertionSort monthDesc
                (byMonthOf (txs.filter txQualifies))).map Prod.fst).length =
                (distinctMonths txs).length := by
              rw [List.length_map, hslen]
            rw [List.take_of_length_le (by omega)]
            have hperm2 : List.Perm
                ((List.insertionSort monthDesc
                  (byMonthOf (txs.filter txQualifies))).map Prod.fst)
                ((byMonthOf (txs.filter txQualifies)).map Prod.fst) :=
              (List.perm_insertionSort monthDesc _).map Prod.fst
            rw [hkeys] at hperm2
            exact hperm2


/-- A qualifying debit transaction dated d with amount a. -/
def chartTx (d : Str) (a : ℚ) : WS.Tx :=
  { date := some d, description := [], amount := a,
    transaction_type := "debit".data, category := none }

/-- Three qualifying debits across three distinct months. -/
def chartTxs : List WS.Tx :=
  [chartTx "2025-09-01".data 5, chartTx "2025-08-02".data 7,
   chartTx "2025-07-03".data 4]

/-- The chart the embedding produces for chartTxs. -/
def chartExample : SpendingChart :=
  { months := [⟨"2025-09".data, 5⟩, ⟨"2025-08".data, 7⟩,
               ⟨"2025-07".data, 4⟩]
    maxAmount := 7 }

/-- Witness for C5 at the concrete three-debit example. -/
theorem spending_chart_characterization_witness :
    chartExample.months.length = min 12 (distinctMonths chartTxs).length ∧
    ∀ e ∈ chartExample.months,
      e.month ∈ distinctMonths chartTxs ∧
        e.total = monthTotal chartTxs e.month :=
  ⟨((spending_chart_characterization chartTxs).2 chartExample rfl).1,
   ((spending_chart_characterization chartTxs).2 chartExample rfl).2.2.2.1⟩

end ChatMsg
end StatementChat

namespace StatementChat

namespace ChatMsg

open WS

/-- Global single-character replacement, the behaviour of
str.replace(/c/g, rep) for a one-character pattern. -/
def replaceChar (c : Char) (rep : Str) (s : Str) : Str :=
  (s.map (fun x => if x = c then rep else [x])).flatten

/-- The HTML-escaping prefix of formatContent: replace every ampersand,
then every less-than, then every greater-than sign, in that order. -/
def escapeHtml (s : Str) : Str :=
  replaceChar '>' "&gt;".data
    (replaceChar '<' "&lt;".data
      (replaceChar '&' "&amp;".data s))

/-- Leftmost-match search for an anchored matcher that yields a
replacement and the rest of the input: the accumulator carries the
already-scanned prefix reversed. -/
def findFromAux (f : Str → Option (Str × Str)) :
    Str → Str → Option (Str × Str × Str)
  | acc, [] =>
    match f [] with
    | some (rep, rest) => some (acc.reverse, rep, rest)
    | none => none
  | acc, c :: cs =>
    match f (c :: cs) with
    | some (rep, rest) => some (acc.reverse, rep, rest)
    | none => findFromAux f (c :: acc) cs

/-- Leftmost match of an anchored matcher over the whole input,
returning the unmatched prefix, the replacement and the rest. -/
def findFrom (f : Str → Option (Str × Str)) (s : Str) :
    Option (Str × Str × Str) :=
  findFromAux f [] s

/-- Global regular-expression replacement: repeatedly find the
leftmost match and continue after it, the replacement text never being
rescanned. The fuel bounds the number of matches; every matcher used
here consumes at least one character, so an initial fuel of length
plus one is never exhausted. -/
def globalReplace (find : Str → Option (Str × Str × Str)) :
    Nat → Str → Str
  | 0, s => s
  | fuel + 1, s =>
    match find s with
    | none => s
    | some (pre, rep, rest) => pre ++ rep ++ globalReplace find fuel rest

/-- Anchored matcher for the literal OVER BUDGET and its red span. -/
def overBudgetAtF (s : Str) : Option (Str × Str) :=
  (dropLit "OVER BUDGET".data s).map (fun rest =>
    ("<span class=\"text-red-500 font-semibold\">OVER BUDGET</span>".data,
     rest))

/-- Colour class of a used-percentage, the thresholds of the callback
of the (\d+)% used replacement. -/
def pctColorClass (percent : Nat) : Str :=
  if percent ≥ 100 then "text-red-500".data
  else if percent ≥ 80 then "text-yellow-500".data
  else "text-green-500".data

/-- Anchored matcher for (\d+)% used with its coloured span. -/
def pctUsedAtF (s : Str) : Option (Str × Str) :=
  let ds := s.takeWhile Char.isDigit
  if ds = [] then none
  else
    match dropLit "% used".data (s.dropWhile Char.isDigit) with
    | some rest =>
      some ("<span class=\"".data ++ pctColorClass (digitsToNat ds) ++
        "\">".data ++ ds ++ "% used</span>".data, rest)
    | none => none

/-- Anchored matcher for (R[\d,\.]+)\s+remaining with its green span;
the matched whitespace run is replaced by a single space. -/
def remainingAtF (s : Str) : Option (Str × Str) :=
  match takeRAmt s with
  | none => none
  | some (amt, rest) =>
    if rest.takeWhile isJsWhitespace = [] then none
    else
      match dropLit "remaining".data (rest.dropWhile isJsWhitespace) with
      | some rest2 =>
        some ("<span class=\"text-green-500\">".data ++ amt ++
          " remaining</span>".data, rest2)
      | none => none

/-- Anchored matcher for by (R[\d,\.]+) with its red span. -/
def byAmtAtF (s : Str) : Option (Str × Str) :=
  match dropLit "by ".data s with
  | none => none
  | some rest =>
    match takeRAmt rest with
    | none => none
    | some (amt, rest2) =>
      some ("by <span class=\"text-red-500 font-semibold\">".data ++ amt ++
        "</span>".data, rest2)

/-- Anchored matcher for the payments and deposits totals banner
(markers already escaped to &gt; and &lt; entities), producing the
replacement div. -/
def payBannerAtF (s : Str) : Option (Str × Str) :=
  match dropLit "&gt;&gt;&gt; ".data s with
  | none => none
  | some r1 =>
    let d1 := r1.takeWhile Char.isDigit
    if d1 = [] then none
    else
      match dropLit " PAYMENTS TOTALING: ".data
          (r1.dropWhile Char.isDigit) with
      | none => none
      | some r2 =>
        match takeRAmt r2 with
        | none => none
        | some (a1, r3) =>
          match dropLit " | ".data r3 with
          | none => none
          | some r4 =>
            let d2 := r4.takeWhile Char.isDigit
            if d2 = [] then none
            else
              match dropLit " DEPOSITS TOTALING: ".data
                  (r4.dropWhile Char.isDigit) with
              | none => none
              | some r5 =>
                match takeRAmt r5 with
                | none => none
                | some (a2, r6) =>
                  match dropLit " &lt;&lt;&lt;".data r6 with
                  | none => none
                  | some r7 =>
                    some (("<div class=\"mt-2 pt-2 border-t " ++
                      "border-gray-200 dark:border-gray-600 " ++
                      "font-medium\"><span class=\"text-red-500\">").data ++
                      d1 ++ " payments: ".data ++ a1 ++
                      "</span> · <span class=\"text-green-500\">".data ++
                      d2 ++ " deposits: ".data ++ a2 ++
                      "</span></div>".data, r7)

/-- Match R, an optional minus, then one or more amount characters
(the group R-?[\d,\.]+ of the overall budget banner). -/
def takeRAmtNeg (s : Str) : Option (Str × Str) :=
  match s with
  | 'R' :: '-' :: cs =>
    let a := cs.takeWhile isAmtChar
    if a = [] then none
    else some ('R' :: '-' :: a, cs.dropWhile isAmtChar)
  | 'R' :: cs =>
    let a := cs.takeWhile isAmtChar
    if a = [] then none
    else some ('R' :: a, cs.dropWhile isAmtChar)
  | _ => none

/-- Anchored matcher for the overall budget total banner, producing the
replacement div; the third capture allows a leading minus inside the
amount (R-?[\d,\.]+). -/
def overallBannerAtF (s : Str) : Option (Str × Str) :=
  match dropLit "&gt;&gt;&gt; OVERALL BUDGET TOTAL: ".data s with
  | none => none
  | some r1 =>
    match takeRAmt r1 with
    | none => none
    | some (a1, r2) =>
      match dropLit " budgeted, ".data r2 with
      | none => none
      | some r3 =>
        match takeRAmt r3 with
        | none => none
        | some (a2, r4) =>
          match dropLit " spent, ".data r4 with
          | none => none
          | some r5 =>
            match takeRAmtNeg r5 with
            | none => none
            | some (a3, r6) =>
              match dropLit " remaining &lt;&lt;&lt;".data r6 with
              | none => none
              | some r7 =>
                some (("<div class=\"mt-2 pt-2 border-t " ++
                  "border-gray-200 dark:border-gray-600 " ++
                  "font-medium\">Budget: ").data ++ a1 ++
                  " · <span class=\"text-red-500\">Spent: ".data ++ a2 ++
                  "</span> · <span class=\"text-green-500\">Remaining: ".data
                  ++ a3 ++ "</span></div>".data, r7)

/-- Anchored matcher deleting a literal (the residual marker strips). -/
def litAtF (pat : Str) (s : Str) : Option (Str × Str) :=
  (dropLit pat s).map (fun rest => ([], rest))

end ChatMsg

end StatementChat

namespace StatementChat

namespace ChatMsg

open WS

/-- Match exactly n decimal digits, returning them and the rest. -/
def takeDigitsN : Nat → Str → Option (Str × Str)
  | 0, s => some ([], s)
  | n + 1, c :: cs =>
    if c.isDigit then
      (takeDigitsN n cs).map (fun p => (c :: p.1, p.2))
    else none
  | _ + 1, [] => none

/-- Match a full date \d{4}-\d{2}-\d{2}, returning it and the rest. -/
def parseFullDate (s : Str) : Option (Str × Str) :=
  match takeDigitsN 4 s with
  | some (y, '-' :: r1) =>
    match takeDigitsN 2 r1 with
    | some (mo, '-' :: r2) =>
      match takeDigitsN 2 r2 with
      | some (d, r3) => some (y ++ '-' :: mo ++ '-' :: d, r3)
      | none => none
    | _ => none
  | _ => none

/-- Parsed fields of a typed transaction line
(\d{4}-\d{2}-\d{2}): (R[\d,\.]+) (debit|credit)(?: \((.+?)\))?$ -/
structure TypedTxLine where
  date : Str
  amount : Str
  isCredit : Bool
  category : Option Str
deriving DecidableEq, Repr

/-- Parse the optional category tail (?: \((.+?)\))?$ after the
debit/credit token: nothing at all, or a space, an opening parenthesis,
at least one character, and a closing parenthesis as last character
(the lazy capture extends to the final closing parenthesis because the
end anchor follows it). -/
def parseOptCategory : Str → Option (Option Str)
  | [] => some none
  | ' ' :: '(' :: rest =>
    match rest.getLast? with
    | some ')' =>
      if rest.dropLast = [] then none
      else some (some rest.dropLast)
    | _ => none
  | _ => none

/-- Parse a typed transaction line after the optional bullet prefix:
date, colon space, case-sensitive R amount, space, debit or credit,
optional category, end of line. -/
def parseTypedTail (s : Str) : Option TypedTxLine :=
  match parseFullDate s with
  | none => none
  | some (date, rest) =>
    match dropLit ": ".data rest with
    | none => none
    | some r2 =>
      match takeRAmt r2 with
      | none => none
      | some (amt, r3) =>
        match r3 with
        | ' ' :: r4 =>
          match dropLit "debit".data r4 with
          | some r5 =>
            (parseOptCategory r5).map (fun cat =>
              { date := date, amount := amt, isCredit := false,
                category := cat })
          | none =>
            match dropLit "credit".data r4 with
            | some r5 =>
              (parseOptCategory r5).map (fun cat =>
                { date := date, amount := amt, isCredit := true,
                  category := cat })
            | none => none
        | _ => none

/-- Parse a whole line against ^([-•]?\s*)(typed tail)$ — the optional
bullet character followed by optional whitespace (deterministic since a
date begins with a digit). -/
def typedLineParse (l : Str) : Option TypedTxLine :=
  match l with
  | '-' :: r => parseTypedTail (r.dropWhile isJsWhitespace)
  | '•' :: r => parseTypedTail (r.dropWhile isJsWhitespace)
  | _ => parseTypedTail (l.dropWhile isJsWhitespace)

/-- Colour class of a debit or credit token. -/
def typedCls (isCredit : Bool) : Str :=
  if isCredit then "text-green-500 dark:text-green-400".data
  else "text-red-500 dark:text-red-400".data

/-- Sign prefix of a debit or credit token. -/
def typedPfx (isCredit : Bool) : Str :=
  if isCredit then "+".data else "-".data

/-- The inline div replacing a standalone typed transaction line. -/
def renderTypedDiv (t : TypedTxLine) : Str :=
  let catText := match t.category with
    | some c =>
      " <span class=\"text-gray-400 text-xs\">".data ++ c ++ "</span>".data
    | none => []
  ("<div class=\"flex justify-between items-center py-1 border-b " ++
    "border-gray-100 dark:border-gray-700\">" ++
    "<span class=\"text-gray-500 text-sm\">").data ++ t.date ++ catText ++
  "</span><span class=\"".data ++ typedCls t.isCredit ++
  " font-medium\">".data ++ typedPfx t.isCredit ++ t.amount ++
  "</span></div>".data

/-- Anchored matcher for a standalone typed transaction line
^([-•]?\s*)(\d{4}-\d{2}-\d{2}): (R[\d,\.]+) (debit|credit)
(?: \((.+?)\))?$ — the optional bullet, then whitespace that may cross
line terminators, then the typed tail filling the remainder of its line
(the dollar matches before any line terminator); the bullet capture is
not used by the replacement div. -/
def typedAtF (s : Str) : Option (Str × Str) :=
  let afterBullet := match s with
    | '-' :: r => r
    | '•' :: r => r
    | _ => s
  let r2 := afterBullet.dropWhile isJsWhitespace
  match parseTypedTail (r2.takeWhile (fun c => !isLineTerm c)) with
  | some t => some (renderTypedDiv t, r2.dropWhile (fun c => !isLineTerm c))
  | none => none

end ChatMsg

end StatementChat

namespace StatementChat

namespace ChatMsg

open WS

/-- Global replacement of a line-anchored multiline pattern
(^...$ with the gm flags): the matcher is tried only at line starts
(position zero and each position following a line terminator); on
failure the current line and its terminator pass through; every matcher
used here stops before the terminator of the line its match ends on, so
after a replacement the scan continues with that terminator, which no
later anchored match can consume. The fuel bounds the recursion; length
plus one suffices. -/
def anchoredReplace (f : Str → Option (Str × Str)) :
    Nat → Bool → Str → Str
  | 0, _, s => s
  | _ + 1, _, [] => []
  | fuel + 1, true, s =>
    (match f s with
     | some (rep, rest) => rep ++ anchoredReplace f fuel false rest
     | none =>
       match s.dropWhile (fun c => !isLineTerm c) with
       | [] => s
       | t :: rest2 =>
         s.takeWhile (fun c => !isLineTerm c) ++
           t :: anchoredReplace f fuel true rest2)
  | fuel + 1, false, s =>
    match s with
    | [] => []
    | c :: rest2 =>
      if isLineTerm c then c :: anchoredReplace f fuel true rest2
      else c :: anchoredReplace f fuel false rest2

/-- Anchored matcher for ^\s*\d*\s*LIT.*$ with the given literal: the
whitespace runs may cross line terminators (the JavaScript \s class
contains them all), the digits are contiguous, and the match extends to
the end of the line the literal sits on; the replacement is empty and
the rest begins at that line terminator. The character classes are
disjoint, so greedy scanning is exact. -/
def stripLineAtF (lit : Str) (s : Str) : Option (Str × Str) :=
  match dropLit lit
      (((s.dropWhile isJsWhitespace).dropWhile Char.isDigit).dropWhile
        isJsWhitespace) with
  | none => none
  | some r4 => some ([], r4.dropWhile (fun c => !isLineTerm c))

/-- Anchored matcher for ^\s*[XY]\s+PAYMENTS TOTALING:.*$ -/
def stripXYAtF (s : Str) : Option (Str × Str) :=
  match s.dropWhile isJsWhitespace with
  | c :: rest =>
    if c = 'X' || c = 'Y' then
      if (rest.takeWhile isJsWhitespace).isEmpty then none
      else
        match dropLit "PAYMENTS TOTALING:".data
            (rest.dropWhile isJsWhitespace) with
        | none => none
        | some r4 => some ([], r4.dropWhile (fun c => !isLineTerm c))
    else none
  | [] => none

/-- Consume the line-terminator-free run at the head of the input, and
the following newline when the terminator is a literal line feed (the
\n? of each list alternative consumes only that); any other terminator
is left for the scan that follows the block. -/
def consumeRun (s : Str) : Str × Str :=
  let run := s.takeWhile (fun c => !isLineTerm c)
  match s.dropWhile (fun c => !isLineTerm c) with
  | '\n' :: rest => (run ++ ['\n'], rest)
  | other => (run, other)

/-- One application of the bullet alternative [-•] .+\n? — a bullet,
one space, at least one character the dot can match; the greedy dot run
extends to the line end, then the optional newline. Returns the
consumed text and the rest. -/
def bulletAlt (s : Str) : Option (Str × Str) :=
  match s with
  | b :: ' ' :: c :: _ =>
    if (b = '-' || b = '•') && !isLineTerm c then some (consumeRun s)
    else none
  | _ => none

/-- Truth of the prefix test of the date alternative
\d{4}-\d{2}(?:-\d{2})?: .+ (the character after the colon and space
must be one the dot can match). -/
def dateAltTest (s : Str) : Bool :=
  match takeDigitsN 4 s with
  | some (_, '-' :: r1) =>
    (match takeDigitsN 2 r1 with
     | some (_, ':' :: ' ' :: c :: _) => !isLineTerm c
     | some (_, '-' :: r3) =>
       (match takeDigitsN 2 r3 with
        | some (_, ':' :: ' ' :: c :: _) => !isLineTerm c
        | _ => false)
     | _ => false)
  | _ => false

/-- One application of the date alternative
\d{4}-\d{2}(?:-\d{2})?: .+\n? -/
def dateAlt (s : Str) : Option (Str × Str) :=
  if dateAltTest s then some (consumeRun s) else none

/-- Length consumed by \| R[\d,\.]+ anchored at the head of the
input: the pipe, space and R, then the greedy non-empty amount run. -/
def pipeAt (t : Str) : Option Nat :=
  match t with
  | '|' :: ' ' :: 'R' :: c :: rest =>
    if isAmtChar c then some (4 + (rest.takeWhile isAmtChar).length)
    else none
  | _ => none

/-- Rightmost position inside the input at which pipeAt succeeds,
returned as the total length consumed from the head of the input up to
the end of that match: the greedy dot of [A-Z].+\| backtracks from the
line end, so the engine commits to the last viable pipe. -/
def rightmostPipe : Str → Option Nat
  | [] => none
  | c :: cs =>
    match rightmostPipe cs with
    | some n => some (n + 1)
    | none =>
      match pipeAt (c :: cs) with
      | some n => some n
      | none => none

/-- One application of the pipe alternative [A-Z].+\| R[\d,\.]+\n? —
an uppercase first character, at least one dot character, then the
rightmost pipe-space-R-amount inside the line. The alternative carries
no end anchor, so the match may stop in the middle of the line; the
optional newline is consumed only when the amount run reaches the line
end and the terminator is a line feed. -/
def pipeAlt (s : Str) : Option (Str × Str) :=
  match s with
  | c0 :: _ =>
    if 'A' ≤ c0 && c0 ≤ 'Z' then
      let run := s.takeWhile (fun c => !isLineTerm c)
      match rightmostPipe (run.drop 2) with
      | some n =>
        if 2 + n = run.length then
          (match s.drop run.length with
           | '\n' :: rest => some (run ++ ['\n'], rest)
           | other => some (run, other))
        else some (s.take (2 + n), s.drop (2 + n))
      | none => none
    else none
  | [] => none

/-- One application of the repeated group of the list pattern: the
three alternatives in source order (their first characters are
disjoint, so at most one can apply). -/
def listAlt (s : Str) : Option (Str × Str) :=
  match bulletAlt s with
  | some r => some r
  | none =>
    match pipeAlt s with
    | some r => some r
    | none =>
      match dateAlt s with
      | some r => some r
      | none => none

/-- The greedy + over the list alternatives: concatenate applications
until none matches (each consumes at least three characters, so fuel of
length plus one is never exhausted); returns the consumed block text
and the rest, which may begin in the middle of a line. -/
def listBlockAux : Nat → Str → (Str × Str)
  | 0, s => ([], s)
  | fuel + 1, s =>
    match listAlt s with
    | some (seg, rest) =>
      let p := listBlockAux fuel rest
      (seg ++ p.1, p.2)
    | none => ([], s)

/-- The header part (.*?:)\n at a caret position: the lazy dot prefix
cannot cross a line terminator, and the literal newline must follow the
colon immediately, so the only candidate is a run that ends in a colon
whose terminator is a line feed. Returns the header capture and the
text after the newline. -/
def headerAt (s : Str) : Option (Str × Str) :=
  match s.dropWhile (fun c => !isLineTerm c) with
  | '\n' :: rest =>
    (match (s.takeWhile (fun c => !isLineTerm c)).getLast? with
     | some ':' => some (s.takeWhile (fun c => !isLineTerm c), rest)
     | _ => none)
  | _ => none

/-- The whole list pattern at a caret position: a header, then at least
one alternative; returns the header capture, the block capture and the
rest of the input. -/
def listMatchAt (s : Str) : Option (Str × Str × Str) :=
  match headerAt s with
  | none => none
  | some (header, afterNl) =>
    match listAlt afterNl with
    | none => none
    | some _ =>
      let p := listBlockAux (afterNl.length + 1) afterNl
      some (header, p.1, p.2)

/-- Case-sensitive substring test (String.prototype.includes). -/
def hasSubstr : Str → Str → Bool
  | pat, [] => (dropLit pat []).isSome
  | pat, c :: cs => (dropLit pat (c :: cs)).isSome || hasSubstr pat cs

/-- Case-insensitive substring test, the i-flagged test() call. -/
def hasSubstrCI : Str → Str → Bool
  | pat, [] => (dropLitCI pat []).isSome
  | pat, c :: cs => (dropLitCI pat (c :: cs)).isSome || hasSubstrCI pat cs

/-- Truth of the deposit-section test /received|deposit|credit/i on the
block header. -/
def isDepositHeader (h : Str) : Bool :=
  hasSubstrCI "received".data h || hasSubstrCI "deposit".data h ||
  hasSubstrCI "credit".data h

/-- Lazy left-to-right split: the shortest non-empty prefix whose
remainder satisfies the anchored tail test, as a lazy (.+?) capture
followed by an end-anchored tail behaves. -/
def lazySplitAux (test : Str → Option Str) :
    Str → Str → Option (Str × Str)
  | _, [] => none
  | acc, c :: cs =>
    match test cs with
    | some amt => some ((c :: acc).reverse, amt)
    | none => lazySplitAux test (c :: acc) cs

/-- Lazy split from the start of the input. -/
def lazySplit (test : Str → Option Str) (s : Str) : Option (Str × Str) :=
  lazySplitAux test [] s

/-- Tail test for a space, dash, space, then an R amount reaching the
end of the line ( - R[\d,\.]+$). -/
def dashAmtHere (rest : Str) : Option Str :=
  match rest with
  | ' ' :: '-' :: ' ' :: 'R' :: t =>
    if !t.isEmpty && t.all isAmtChar then some ('R' :: t) else none
  | _ => none

/-- Tail test for a space, pipe, space, then an R amount reaching the
end of the line ( \| (R[\d,\.]+)$). -/
def pipeAmtHere (rest : Str) : Option Str :=
  match rest with
  | ' ' :: '|' :: ' ' :: 'R' :: t =>
    if !t.isEmpty && t.all isAmtChar then some ('R' :: t) else none
  | _ => none

/-- Tail test for whitespace then an optionally negative R amount
reaching the end of the line (\s+(-?R[\d,\.]+)$); the capture keeps the
minus sign. -/
def wsAmtHere (rest : Str) : Option Str :=
  if (rest.takeWhile isJsWhitespace).isEmpty then none
  else
    match rest.dropWhile isJsWhitespace with
    | '-' :: 'R' :: t =>
      if !t.isEmpty && t.all isAmtChar then some ('-' :: 'R' :: t) else none
    | 'R' :: t =>
      if !t.isEmpty && t.all isAmtChar then some ('R' :: t) else none
    | _ => none

/-- Row matcher "- 2025-11-03: Description - R1,000.00"
(^[-•] (\d{4}-\d{2}-\d{2}): (.+?) - (R[\d,\.]+)$). -/
def parseDateDescAmt (l : Str) : Option (Str × Str × Str) :=
  match l with
  | b :: ' ' :: rest =>
    if b = '-' || b = '•' then
      match parseFullDate rest with
      | some (date, ':' :: ' ' :: r2) =>
        (lazySplit dashAmtHere r2).map (fun p => (date, p.1, p.2))
      | _ => none
    else none
  | _ => none

/-- Row matcher "2025-12-29   Description   -R119.99"
(^(\d{4}-\d{2}-\d{2})\s+(.+?)\s+(-?R[\d,\.]+)$): the first whitespace
run is tried greedily from its maximal length downwards, and for each
choice the lazy description grows from the left, reproducing the
backtracking priorities of the engine. -/
def parseTabRow (l : Str) : Option (Str × Str × Str) :=
  match parseFullDate l with
  | none => none
  | some (date, s) =>
    let maxW := (s.takeWhile isJsWhitespace).length
    ((List.range maxW).findSome? (fun k =>
      lazySplit wsAmtHere (s.drop (maxW - k)))).map
        (fun p => (date, p.1, p.2))

/-- Row matcher "2025-04: Description - R2.50"
(^(\d{4}-\d{2}): (.+?) - (R[\d,\.]+)$). -/
def parseMonthDescAmt (l : Str) : Option (Str × Str × Str) :=
  match takeDigitsN 4 l with
  | some (y, '-' :: r1) =>
    (match takeDigitsN 2 r1 with
     | some (mo, ':' :: ' ' :: r2) =>
       (lazySplit dashAmtHere r2).map (fun p => (y ++ '-' :: mo, p.1, p.2))
     | _ => none)
  | _ => none

/-- Row matcher "2025-04-01: Description - R2.50"
(^(\d{4}-\d{2}-\d{2}): (.+?) - (R[\d,\.]+)$). -/
def parseFullDateDescAmt (l : Str) : Option (Str × Str × Str) :=
  match parseFullDate l with
  | some (date, ':' :: ' ' :: r2) =>
    (lazySplit dashAmtHere r2).map (fun p => (date, p.1, p.2))
  | _ => none

/-- Row matcher "Description | R1,000.00" (^(.+?) \| (R[\d,\.]+)$). -/
def parsePipeRow (l : Str) : Option (Str × Str) :=
  lazySplit pipeAmtHere l

/-- Row matcher "- R1,000.00 (2025-11-03)"
(^[-•] (R[\d,\.]+) \((\d{4}-\d{2}-\d{2})\)$). -/
def parseAmtDate (l : Str) : Option (Str × Str) :=
  match l with
  | b :: ' ' :: rest =>
    if b = '-' || b = '•' then
      match takeRAmt rest with
      | some (amt, ' ' :: '(' :: r2) =>
        (match parseFullDate r2 with
         | some (date, [')']) => some (amt, date)
         | _ => none)
      | _ => none
    else none
  | _ => none

/-- Scan for an R followed by at least one amount character (the
fallback test line.match(/R[\d,\.]+/)). -/
def hasRAmt : Str → Bool
  | 'R' :: c :: cs => isAmtChar c || hasRAmt (c :: cs)
  | _ :: cs => hasRAmt cs
  | [] => false

/-- Strip one leading bullet and space (line.replace(/^[-•] /, '')). -/
def stripBullet (l : Str) : Str :=
  match l with
  | b :: ' ' :: rest => if b = '-' || b = '•' then rest else l
  | _ => l

end ChatMsg

end StatementChat

namespace StatementChat

namespace ChatMsg

open WS

/-- Opening tag shared by every table row template. -/
def trOpen : Str :=
  "<tr class=\"border-b border-gray-100 dark:border-gray-700\">".data

/-- One row of a list block: the skip test for no-transaction notes,
then the seven row patterns in source order, then the amount-bearing
fallback cell, then the empty string (a dropped line). The block-wide
amount class and sign prefix apply to every pattern that carries no
debit or credit token of its own. -/
def renderRow (amtClass amtPfx : Str) (line : Str) : Str :=
  if hasSubstr "no previous transactions".data line ||
      hasSubstr "no transactions".data line then []
  else
    match typedLineParse line with
    | some t =>
      trOpen ++ "<td class=\"py-2 pr-3 text-gray-500 text-xs\">".data ++
      t.date ++ "</td><td class=\"py-2 pr-3\">".data ++
      (t.category.getD []) ++ "</td><td class=\"py-2 text-right ".data ++
      typedCls t.isCredit ++ " font-medium\">".data ++
      typedPfx t.isCredit ++ t.amount ++ "</td></tr>".data
    | none =>
      match parseDateDescAmt line with
      | some (d, desc, amt) =>
        trOpen ++ "<td class=\"py-2 pr-3 text-gray-500 text-xs\">".data ++
        d ++ "</td><td class=\"py-2 pr-3\">".data ++ desc ++
        "</td><td class=\"py-2 text-right ".data ++ amtClass ++
        " font-medium\">".data ++ amtPfx ++ amt ++ "</td></tr>".data
      | none =>
        match parseTabRow line with
        | some (d, desc, amt) =>
          trOpen ++ "<td class=\"py-2 pr-3 text-gray-500 text-xs\">".data ++
          d ++ "</td><td class=\"py-2 pr-3\">".data ++ desc ++
          "</td><td class=\"py-2 text-right ".data ++ amtClass ++
          " font-medium\">".data ++ amtPfx ++
          (match amt with
           | '-' :: t => t
           | t => t) ++ "</td></tr>".data
        | none =>
          match parseMonthDescAmt line with
          | some (d, desc, amt) =>
            trOpen ++
            "<td class=\"py-2 pr-3 text-gray-500 text-xs\">".data ++ d ++
            "</td><td class=\"py-2 pr-3\">".data ++ desc ++
            "</td><td class=\"py-2 text-right ".data ++ amtClass ++
            " font-medium\">".data ++ amtPfx ++ amt ++ "</td></tr>".data
          | none =>
            match parseFullDateDescAmt line with
            | some (d, desc, amt) =>
              trOpen ++
              "<td class=\"py-2 pr-3 text-gray-500 text-xs\">".data ++ d ++
              "</td><td class=\"py-2 pr-3\">".data ++ desc ++
              "</td><td class=\"py-2 text-right ".data ++ amtClass ++
              " font-medium\">".data ++ amtPfx ++ amt ++ "</td></tr>".data
            | none =>
              match parsePipeRow line with
              | some (desc, amt) =>
                trOpen ++ "<td class=\"py-2 pr-3\">".data ++ desc ++
                "</td><td class=\"py-2 text-right ".data ++ amtClass ++
                " font-medium\">".data ++ amtPfx ++ amt ++ "</td></tr>".data
              | none =>
                match parseAmtDate line with
                | some (amt, d) =>
                  trOpen ++
                  "<td class=\"py-2 pr-3 text-gray-500 text-xs\">".data ++
                  d ++ "</td><td class=\"py-2 text-right ".data ++
                  amtClass ++ " font-medium\">".data ++ amtPfx ++ amt ++
                  "</td></tr>".data
                | none =>
                  if hasRAmt line then
                    trOpen ++ "<td class=\"py-2\" colspan=\"3\">".data ++
                    stripBullet line ++ "</td></tr>".data
                  else []

/-- The callback of the list-pattern replacement: trim the captured
block text, split it on newlines (the final line may be a partial line
when the pipe alternative stopped mid-line), drop blank lines, choose
the block-wide colour convention from the header wording, render every
line, drop empty renderings and wrap the rows in a table after the
header; if no line survives, the original matched text (header,
newline, block capture) is returned unchanged. -/
def renderBlock (header blockText : Str) : Str :=
  let lines := ((jsTrim blockText).splitOn '\n').filter
    (fun l => !(jsTrim l).isEmpty)
  if lines.isEmpty then header ++ '\n' :: blockText
  else
    let isDep := isDepositHeader header
    let amtClass := if isDep then "text-green-500 dark:text-green-400".data
      else "text-red-500 dark:text-red-400".data
    let amtPfx := if isDep then "+".data else "-".data
    header ++ "<table class=\"mt-3 text-sm w-full\"><tbody>".data ++
    ((lines.map (renderRow amtClass amtPfx)).filter
      (fun r => !r.isEmpty)).flatten ++
    "</tbody></table>".data

/-- The list-pattern stage over the text: at each caret position
(the start, and after every line terminator), a header followed by at
least one alternative is replaced by the rendered block, and the scan
resumes immediately after the consumed text — at a caret position
exactly when the block capture ended with a consumed line feed;
everything else passes through. The fuel (length plus one) makes the
recursion structural: a match consumes at least two characters and a
failed caret position advances past at least its terminator. -/
def listReplace : Nat → Bool → Str → Str
  | 0, _, s => s
  | _ + 1, _, [] => []
  | fuel + 1, true, s =>
    (match listMatchAt s with
     | some (header, block, rest) =>
       renderBlock header block ++
         listReplace fuel (block.getLast? == some '\n') rest
     | none =>
       match s.dropWhile (fun c => !isLineTerm c) with
       | [] => s
       | t :: rest2 =>
         s.takeWhile (fun c => !isLineTerm c) ++
           t :: listReplace fuel true rest2)
  | fuel + 1, false, s =>
    match s with
    | [] => []
    | c :: rest2 =>
      if isLineTerm c then c :: listReplace fuel true rest2
      else c :: listReplace fuel false rest2

/-- Embedding of formatContent(content) of the ChatMessage component:
empty content yields the empty string; otherwise HTML escaping, the
inline colourings, the two banners, the marker and context-line strips,
the standalone typed transaction lines and the list blocks, in source
order. Every stage is a total function, so the structurer cannot throw
on any input. -/
def formatContent (content : Str) : Str :=
  if content = [] then []
  else
    let f1 := escapeHtml content
    let f2 := globalReplace (findFrom overBudgetAtF) (f1.length + 1) f1
    let f3 := globalReplace (findFrom pctUsedAtF) (f2.length + 1) f2
    let f4 := globalReplace (findFrom remainingAtF) (f3.length + 1) f3
    let f5 := globalReplace (findFrom byAmtAtF) (f4.length + 1) f4
    let f6 := globalReplace (findFrom payBannerAtF) (f5.length + 1) f5
    let f7 := globalReplace (findFrom overallBannerAtF) (f6.length + 1) f6
    let f8 := globalReplace (findFrom (litAtF "&gt;&gt;&gt;".data))
      (f7.length + 1) f7
    let f9 := globalReplace (findFrom (litAtF "&lt;&lt;&lt;".data))
      (f8.length + 1) f8
    let f10 := anchoredReplace (stripLineAtF "PAYMENTS TOTALING:".data)
      (f9.length + 1) true f9
    let f11 := anchoredReplace (stripLineAtF "DEPOSITS TOTALING:".data)
      (f10.length + 1) true f10
    let f12 := anchoredReplace stripXYAtF (f11.length + 1) true f11
    let f13 := anchoredReplace typedAtF (f12.length + 1) true f12
    listReplace (f13.length + 1) true f13

end ChatMsg

end StatementChat

namespace StatementChat

namespace ChatMsg

open WS

theorem globalReplace_none (find : Str → Option (Str × Str × Str))
    (fuel : Nat) (s : Str) (h : find s = none) :
    globalReplace find (fuel + 1) s = s := by
  simp [globalReplace, h]

theorem dropWhile_shorter {p : Char → Bool} {l t : Str} {c : Char}
    (h : l.dropWhile p = c :: t) :
    t.length < l.length := by
  have h1 := (List.dropWhile_sublist (l := l) (p := p)).length_le
  rw [h] at h1
  simp only [List.length_cons] at h1
  omega

/-- The suffixes of a string that begin at a line start: the string
itself and, recursively, the text after each line terminator. These are
exactly the positions at which a multiline caret anchor can match. -/
def lineStarts (s : Str) : List Str :=
  s :: (match h : s.dropWhile (fun c => !isLineTerm c) with
    | [] => []
    | _ :: rest => lineStarts rest)
termination_by s.length
decreasing_by
  exact dropWhile_shorter h

theorem lineStarts_eq_cons (s rest : Str) (c : Char)
    (h : s.dropWhile (fun ch => !isLineTerm ch) = c :: rest) :
    lineStarts s = s :: lineStarts rest := by
  conv_lhs => unfold lineStarts
  congr 1
  split
  · next heq => rw [heq] at h; exact absurd h (by simp)
  · next c2 rest2 heq =>
    rw [heq] at h
    injection h with _ h2
    rw [h2]

theorem lineStarts_eq_single (s : Str)
    (h : s.dropWhile (fun ch => !isLineTerm ch) = []) :
    lineStarts s = [s] := by
  conv_lhs => unfold lineStarts
  congr 1
  split
  · rfl
  · next c2 rest2 heq => rw [heq] at h; exact absurd h (by simp)

theorem mem_lineStarts_self (s : Str) : s ∈ lineStarts s := by
  unfold lineStarts
  exact List.mem_cons_self _ _

theorem anchoredReplace_id (f : Str → Option (Str × Str)) :
    ∀ (fuel : Nat) (s : Str), s.length < fuel →
    (∀ t ∈ lineStarts s, f t = none) →
    anchoredReplace f fuel true s = s := by
  intro fuel
  induction fuel with
  | zero => intro s h; omega
  | succ n ih =>
    intro s hlen hf
    cases s with
    | nil => rfl
    | cons c0 cs =>
      have hself : f (c0 :: cs) = none := hf _ (mem_lineStarts_self _)
      unfold anchoredReplace
      rw [hself]
      cases hd : (c0 :: cs).dropWhile (fun ch => !isLineTerm ch) with
      | nil => simp
      | cons t rest2 =>
        have hdecomp : (c0 :: cs).takeWhile (fun ch => !isLineTerm ch) ++
            t :: rest2 = c0 :: cs := by
          conv_rhs => rw [← List.takeWhile_append_dropWhile
            (p := fun ch => !isLineTerm ch) (l := c0 :: cs)]
          rw [hd]
        have hlen2 : rest2.length < n := by
          have h1 : ((c0 :: cs).takeWhile (fun ch => !isLineTerm ch)).length +
              (t :: rest2).length = (c0 :: cs).length := by
            rw [← List.length_append, hdecomp]
          simp only [List.length_cons] at h1 hlen
          omega
        have hrest : ∀ u ∈ lineStarts rest2, f u = none := by
          intro u hu
          apply hf
          rw [lineStarts_eq_cons _ _ _ hd]
          exact List.mem_cons_of_mem _ hu
        dsimp only
        rw [ih rest2 hlen2 hrest, hdecomp]

theorem listReplace_id :
    ∀ (fuel : Nat) (s : Str), s.length < fuel →
    (∀ t ∈ lineStarts s, listMatchAt t = none) →
    listReplace fuel true s = s := by
  intro fuel
  induction fuel with
  | zero => intro s h; omega
  | succ n ih =>
    intro s hlen hf
    cases s with
    | nil => rfl
    | cons c0 cs =>
      have hself : listMatchAt (c0 :: cs) = none :=
        hf _ (mem_lineStarts_self _)
      unfold listReplace
      rw [hself]
      cases hd : (c0 :: cs).dropWhile (fun ch => !isLineTerm ch) with
      | nil => simp
      | cons t rest2 =>
        have hdecomp : (c0 :: cs).takeWhile (fun ch => !isLineTerm ch) ++
            t :: rest2 = c0 :: cs := by
          conv_rhs => rw [← List.takeWhile_append_dropWhile
            (p := fun ch => !isLineTerm ch) (l := c0 :: cs)]
          rw [hd]
        have hlen2 : rest2.length < n := by
          have h1 : ((c0 :: cs).takeWhile (fun ch => !isLineTerm ch)).length +
              (t :: rest2).length = (c0 :: cs).length := by
            rw [← List.length_append, hdecomp]
          simp only [List.length_cons] at h1 hlen
          omega
        have hrest : ∀ u ∈ lineStarts rest2, listMatchAt u = none := by
          intro u hu
          apply hf
          rw [lineStarts_eq_cons _ _ _ hd]
          exact List.mem_cons_of_mem _ hu
        dsimp only
        rw [ih rest2 hlen2 hrest, hdecomp]

end ChatMsg

end StatementChat

namespace StatementChat

namespace ChatMsg

open WS

/-- The list block of the claim: a header line Recent purchases:
followed by two bulleted date-description-amount lines. -/
def c7input : Str :=
  ("Recent purchases:\n- 2025-09-05: Coffee Shop - R45.00\n" ++
   "- 2025-09-06: Groceries - R320.50").data

/-- The rendering the structurer produces for c7input: the header
followed by a table with exactly two rows, in the original line order,
each carrying the debit colour class and the minus sign prefix. -/
def c7expected : Str :=
  "Recent purchases:<table class=\"mt-3 text-sm w-full\"><tbody><".data ++
  "tr class=\"border-b border-gray-100 dark:border-gray-700\"><td".data ++
  " class=\"py-2 pr-3 text-gray-500 text-xs\">2025-09-05</td><td ".data ++
  "class=\"py-2 pr-3\">Coffee Shop</td><td class=\"py-2 text-right".data ++
  " text-red-500 dark:text-red-400 font-medium\">-R45.00</td></t".data ++
  "r><tr class=\"border-b border-gray-100 dark:border-gray-700\">".data ++
  "<td class=\"py-2 pr-3 text-gray-500 text-xs\">2025-09-06</td><".data ++
  "td class=\"py-2 pr-3\">Groceries</td><td class=\"py-2 text-righ".data ++
  "t text-red-500 dark:text-red-400 font-medium\">-R320.50</td><".data ++
  "/tr></tbody></table>".data

end ChatMsg

end StatementChat

namespace ChatMsgProps

open StatementChat StatementChat.ChatMsg StatementChat.WS

/-- C7: on the list block whose header line is Recent purchases:
followed by the bulleted lines for 2025-09-05 Coffee Shop R45.00 and
2025-09-06 Groceries R320.50, the structurer emits the header and a
transaction table with exactly two rows in the original line order,
each rendered with the debit colour class text-red-500
dark:text-red-400 and a minus prefix, because the header wording
contains none of received, deposit or credit (second conjunct); the
first conjunct is the full rendered output, character for character. -/
theorem formatContent_list_block_example :
    formatContent c7input = c7expected ∧
    isDepositHeader "Recent purchases:".data = false := by
  constructor
  · set_option maxRecDepth 40000 in decide
  · decide

end ChatMsgProps

namespace ChatMsgProps

open StatementChat StatementChat.ChatMsg StatementChat.WS

/-- C4: on any input in which no structuring pattern occurs — no
inline colouring phrase (OVER BUDGET, percent used, amount remaining,
by amount), no banner, no residual banner marker, no strippable
context line, no standalone typed transaction line at any line start,
and no list-pattern match (a colon-terminated header line followed by
at least one list alternative) at any line start — the structurer
returns exactly the
HTML-escaped input (ampersand, less-than and greater-than replaced)
and nothing else. The embedding is built from total functions, so the
structurer cannot throw on any input. -/
theorem formatContent_plain_identity (s : Str)
    (h2 : findFrom overBudgetAtF (escapeHtml s) = none)
    (h3 : findFrom pctUsedAtF (escapeHtml s) = none)
    (h4 : findFrom remainingAtF (escapeHtml s) = none)
    (h5 : findFrom byAmtAtF (escapeHtml s) = none)
    (h6 : findFrom payBannerAtF (escapeHtml s) = none)
    (h7 : findFrom overallBannerAtF (escapeHtml s) = none)
    (h8 : findFrom (litAtF "&gt;&gt;&gt;".data) (escapeHtml s) = none)
    (h9 : findFrom (litAtF "&lt;&lt;&lt;".data) (escapeHtml s) = none)
    (h10a : ∀ t ∈ lineStarts (escapeHtml s),
      stripLineAtF "PAYMENTS TOTALING:".data t = none)
    (h10b : ∀ t ∈ lineStarts (escapeHtml s),
      stripLineAtF "DEPOSITS TOTALING:".data t = none)
    (h10c : ∀ t ∈ lineStarts (escapeHtml s), stripXYAtF t = none)
    (h10d : ∀ t ∈ lineStarts (escapeHtml s), typedAtF t = none)
    (h11 : ∀ t ∈ lineStarts (escapeHtml s), listMatchAt t = none) :
    formatContent s = escapeHtml s := by
  by_cases hs : s = []
  · subst hs; rfl
  · unfold formatContent
    rw [if_neg hs]
    dsimp only
    rw [globalReplace_none _ _ _ h2, globalReplace_none _ _ _ h3,
      globalReplace_none _ _ _ h4, globalReplace_none _ _ _ h5,
      globalReplace_none _ _ _ h6, globalReplace_none _ _ _ h7,
      globalReplace_none _ _ _ h8, globalReplace_none _ _ _ h9,
      anchoredReplace_id _ _ _ (by omega) h10a,
      anchoredReplace_id _ _ _ (by omega) h10b,
      anchoredReplace_id _ _ _ (by omega) h10c,
      anchoredReplace_id _ _ _ (by omega) h10d,
      listReplace_id _ _ (by omega) h11]

/-- Witness for C4: the pattern-free content Thanks for your question.
passes through the structurer unchanged (its escape is itself). -/
theorem formatContent_plain_identity_witness :
    formatContent "Thanks for your question.".data =
      "Thanks for your question.".data := by
  have hls : lineStarts (escapeHtml "Thanks for your question.".data) =
      [escapeHtml "Thanks for your question.".data] :=
    lineStarts_eq_single _ (by decide)
  have h := formatContent_plain_identity "Thanks for your question.".data
    (by decide) (by decide) (by decide) (by decide) (by decide) (by decide)
    (by decide) (by decide)
    (by rw [hls]; intro t ht; rw [List.mem_singleton] at ht; subst ht; decide)
    (by rw [hls]; intro t ht; rw [List.mem_singleton] at ht; subst ht; decide)
    (by rw [hls]; intro t ht; rw [List.mem_singleton] at ht; subst ht; decide)
    (by rw [hls]; intro t ht; rw [List.mem_singleton] at ht; subst ht; decide)
    (by rw [hls]; intro t ht; rw [List.mem_singleton] at ht; subst ht; decide)
  rw [h]
  decide

end ChatMsgProps
